import Mathlib

/-!
# Verification of the video-to-PDF pipeline script

A shallow embedding of `video_to_pdf_notes_script.py`.  Python strings are
modelled as `List Char`; the filesystem is a pair of lists (directories and
files), where a directory path is a list of name components and a file is a
pair of its directory and its name.  External effects (the `ffmpeg`
subprocess, PIL's `save`) are modelled by explicit environment parameters:
the number of frame files the `ffmpeg` call deposits, and whether `save`
raises an exception.
-/

namespace VideoToPdf

/-- A Python string (a filename or path component). -/
abbrev Name := List Char

/-- A directory path, as a list of components relative to the base dir. -/
abbrev Dir := List Name

/-- A file, identified by the directory containing it and its name. -/
abbrev FileP := Dir × Name

/-- The numeric value of a digit character (`'0'` ↦ 0, …, `'9'` ↦ 9). -/
def charVal (c : Char) : Nat := c.toNat - 48

/-- Value of a big-endian digit string, as Python `int` reads it. -/
def natOfDigits (l : List Char) : Nat :=
  l.foldl (fun a c => a * 10 + charVal c) 0

/-- The leading run of decimal digits of a string:
what `re.match(r"(\d+)", name)` captures. -/
def digitRun (cs : List Char) : List Char :=
  cs.takeWhile (fun c => c.isDigit)

/-- Embeds `extract_number` (source lines 47–52): the leading run of decimal
digits read as an integer, or the sentinel `999999999` if there is none. -/
def extract_number (name : Name) : Nat :=
  let run := digitRun name
  if run = [] then 999999999 else natOfDigits run

/-- Python `str(n)` for a natural number: core's decimal printer. -/
def pythonStr (n : Nat) : List Char := Nat.toDigits 10 n

/-- Python `s.zfill(w)` for a digit string: left-pad with `'0'` to width `w`. -/
def zfill (w : Nat) (s : List Char) : List Char :=
  List.replicate (w - s.length) '0' ++ s

/-! ## Filesystem model -/

/-- Fixed directories (source lines 30–32): `BASE_DIR = "."`,
`VIDEO_DIR = "./video"`, `OUTPUT_DIR = "./pdf"`. -/
def BASE_DIR : Dir := []

def VIDEO_DIR : Dir := ["video".toList]

def OUTPUT_DIR : Dir := ["pdf".toList]

/-- The filesystem: which directories and which files exist. -/
structure FS where
  dirs : List Dir
  files : List FileP
deriving DecidableEq

/-- Add a directory path if not present (`mkdir(exist_ok=True)`). -/
def insertDir (p : Dir) (l : List Dir) : List Dir :=
  if p ∈ l then l else p :: l

/-- `p.mkdir(exist_ok=True)` (no parents). -/
def mkdir (p : Dir) (fs : FS) : FS :=
  { fs with dirs := insertDir p fs.dirs }

/-- `p.mkdir(parents=True, exist_ok=True)`: every prefix of the path is
created if missing. -/
def mkdirParents (p : Dir) (fs : FS) : FS :=
  { fs with dirs := p.inits.foldl (fun d q => insertDir q d) fs.dirs }

/-- Create a file (present afterwards; creating an existing file keeps it). -/
def addFile (f : FileP) (fs : FS) : FS :=
  { fs with files := if f ∈ fs.files then fs.files else f :: fs.files }

/-- `d.glob(pattern)`: the files directly inside `d` whose name matches. -/
def globFiles (d : Dir) (pat : Name → Bool) (fs : FS) : List FileP :=
  fs.files.filter (fun f => decide (f.1 = d) && pat f.2)

/-- The glob pattern `frame_*.jpg` of the idempotency check (line 65). -/
def matchFrameGlob (n : Name) : Bool :=
  "frame_".toList.isPrefixOf n && ".jpg".toList.isSuffixOf n &&
    decide (10 ≤ n.length)

/-- The glob pattern `*.jpg` of the assembler (line 99). -/
def matchJpg (n : Name) : Bool := ".jpg".toList.isSuffixOf n

/-- The glob pattern `*.pdf` of the merger (line 166). -/
def matchPdf (n : Name) : Bool := ".pdf".toList.isSuffixOf n

/-- The name `ffmpeg` writes for frame number `i`: the `frame_%04d.jpg`
output pattern (line 71). -/
def frameName (i : Nat) : Name :=
  "frame_".toList ++ zfill 4 (pythonStr i) ++ ".jpg".toList

/-- Effect of the `ffmpeg` call: it deposits `k` sequentially numbered
frame files into `folder` (`k = 0` models a failed or empty extraction;
the script never inspects the exit status, line 85). -/
def ffmpegDeposit (k : Nat) (folder : Dir) (fs : FS) : FS :=
  (List.range k).foldl (fun s i => addFile (folder, frameName (i + 1)) s) fs

/-! ## Frame extraction (`extract_frames`, lines 62–88) -/

/-- Result of `extract_frames`: its return value, whether the external
`ffmpeg` subprocess was invoked, and the filesystem afterwards. -/
structure ExtractResult where
  ret : Bool
  called : Bool
  fs : FS
deriving DecidableEq

/-- Embeds `extract_frames`.  `ff` is the environment: how many frames the
`ffmpeg` subprocess deposits for a given video. -/
def extract_frames (ff : Name → Nat) (video_path : Name) (output_subfolder : Dir)
    (fs : FS) : ExtractResult :=
  let fs1 := mkdirParents output_subfolder fs
  if globFiles output_subfolder matchFrameGlob fs1 ≠ [] then
    ⟨true, false, fs1⟩
  else
    ⟨true, true, ffmpegDeposit (ff video_path) output_subfolder fs1⟩

/-! ## Page assembly (`images_to_pdf`, lines 94–116) -/

/-- Lexicographic comparison of names, as Python `sorted` orders paths. -/
def nameLe : Name → Name → Bool
  | [], _ => true
  | _ :: _, [] => false
  | a :: as, b :: bs => if a = b then nameLe as bs else decide (a.toNat < b.toNat)

instance decEqExceptUnitBool : DecidableEq (Except Unit Bool) := fun a b =>
  match a, b with
  | .ok x, .ok y =>
    if h : x = y then .isTrue (by rw [h]) else .isFalse (fun hc => h (Except.ok.inj hc))
  | .error x, .error y => .isTrue (by cases x; cases y; rfl)
  | .ok _, .error _ => .isFalse (fun hc => Except.noConfusion hc)
  | .error _, .ok _ => .isFalse (fun hc => Except.noConfusion hc)

/-- Result of `images_to_pdf`: the return value (`Except.error` models an
exception propagating out of the call), whether a PDF was actually written,
which images were opened and which were closed, and the filesystem. -/
structure PdfResult where
  ret : Except Unit Bool
  assembled : Bool
  opened : List FileP
  closed : List FileP
  fs : FS
deriving DecidableEq

/-- `sorted(image_folder.glob("*.jpg"))` (line 99). -/
def sortedJpgs (image_folder : Dir) (fs : FS) : List FileP :=
  List.insertionSort (fun f g => nameLe f.2 g.2 = true)
    (globFiles image_folder matchJpg fs)

/-- Embeds `images_to_pdf`.  `sr` is the environment: whether the
`first.save(...)` call (line 109) raises an exception.  On the success path
the opened images are closed (lines 111–113); when `save` raises, the
`close` calls are never reached. -/
def images_to_pdf (sr : Bool) (image_folder : Dir) (pdf_path : FileP)
    (fs : FS) : PdfResult :=
  if pdf_path ∈ fs.files then
    ⟨.ok true, false, [], [], fs⟩
  else
    let images := sortedJpgs image_folder fs
    if images = [] then
      ⟨.ok false, false, [], [], fs⟩
    else if sr then
      ⟨.error (), false, images, [], fs⟩
    else
      ⟨.ok true, true, images, images, addFile pdf_path fs⟩

/-! ## Cleanup (`delete_frames`, lines 122–128) -/

/-- Embeds `delete_frames`: unlink every `*.jpg` in the folder, then try to
remove the folder, swallowing the error when it is not empty. -/
def delete_frames (folder : Dir) (fs : FS) : FS :=
  let files1 :=
    fs.files.filter (fun f => !(decide (f.1 = folder) && matchJpg f.2))
  if files1.filter (fun f => decide (f.1 = folder)) = [] then
    { dirs := fs.dirs.filter (fun d => decide (d ≠ folder)), files := files1 }
  else
    { fs with files := files1 }

/-! ## Per-video pipeline (`process_video`, lines 134–153) -/

/-- `str(extract_number(video_path.name)).zfill(3)` (line 138). -/
def video_number (name : Name) : Name := zfill 3 (pythonStr (extract_number name))

/-- The per-video frame directory `OUTPUT_DIR / number` (line 139). -/
def video_img_dir (name : Name) : Dir := OUTPUT_DIR ++ [video_number name]

/-- The per-video PDF `OUTPUT_DIR / f"{number}.pdf"` (line 140). -/
def video_pdf_path (name : Name) : FileP :=
  (OUTPUT_DIR, video_number name ++ ".pdf".toList)

/-- Embeds `process_video`: extraction, assembly, cleanup; any exception is
caught and turned into a `false` return.  Note the boolean result of
`images_to_pdf` (line 143) is discarded by the source. -/
def process_video (ff : Name → Nat) (sr : Bool) (video_name : Name)
    (fs : FS) : Bool × FS :=
  let img_dir := video_img_dir video_name
  let pdf_path := video_pdf_path video_name
  let e := extract_frames ff video_name img_dir fs
  let r := images_to_pdf sr img_dir pdf_path e.fs
  match r.ret with
  | .error _ => (false, r.fs)
  | .ok _ => (true, delete_frames img_dir r.fs)

/-- The state of the assembly stage as `process_video` reaches it: the
`images_to_pdf` call of line 143, on the filesystem left by the
`extract_frames` call of line 142. -/
def assemblyResult (ff : Name → Nat) (sr : Bool) (video_name : Name)
    (fs : FS) : PdfResult :=
  images_to_pdf sr (video_img_dir video_name) (video_pdf_path video_name)
    (extract_frames ff video_name (video_img_dir video_name) fs).fs

/-! ## Merge (`merge_all_pdfs`, lines 159–182) -/

/-- The reserved name of the merged output (line 160). -/
def mergedName : Name := "final_merged.pdf".toList

/-- `pathlib.PurePath.stem`: the name minus its last suffix. -/
def stem (n : Name) : Name :=
  match n.reverse.dropWhile (fun c => c != '.') with
  | [] => n
  | _ :: rest => if rest = [] then n else rest.reverse

/-- The merge sort key (line 167): `extract_number(f.stem)`. -/
def mergeKeyLe (f g : FileP) : Prop :=
  extract_number (stem f.2) ≤ extract_number (stem g.2)

instance : DecidableRel mergeKeyLe := fun _ _ => Nat.decLe _ _

instance : IsTotal FileP mergeKeyLe := ⟨fun _ _ => Nat.le_total _ _⟩

instance : IsTrans FileP mergeKeyLe := ⟨fun _ _ _ => Nat.le_trans⟩

/-- Embeds `merge_all_pdfs`: skip when the merged file exists; otherwise
glob `*.pdf` in the output directory, sort by the leading-number key of the
stem, append each into the writer, and write the merged file.  The second
component records which PDFs were appended in which order (`none` when the
merge was skipped). -/
def merge_all_pdfs (fs : FS) : FS × Option (List FileP) :=
  if (OUTPUT_DIR, mergedName) ∈ fs.files then
    (fs, none)
  else
    let pdfs := List.insertionSort mergeKeyLe (globFiles OUTPUT_DIR matchPdf fs)
    (addFile (OUTPUT_DIR, mergedName) fs, some pdfs)

/-! ## Driver (`main`, lines 188–219) -/

/-- The environment of a run: whether `ffmpeg` is installed, how many
frames it deposits per video, and whether PIL `save` raises. -/
structure Env where
  ffmpeg : Bool
  ff : Name → Nat
  sr : Bool

/-- The video sort key of `main` (line 204): `extract_number(f.name)`. -/
def videoKeyLe (f g : FileP) : Prop := extract_number f.2 ≤ extract_number g.2

instance : DecidableRel videoKeyLe := fun _ _ => Nat.decLe _ _

instance : IsTotal FileP videoKeyLe := ⟨fun _ _ => Nat.le_total _ _⟩

instance : IsTrans FileP videoKeyLe := ⟨fun _ _ _ => Nat.le_trans⟩

/-- Glob for one video extension. -/
def matchExt (ext : Name) (n : Name) : Bool := ext.isSuffixOf n

/-- The sorted list of discovered videos (lines 200–205). -/
def discoverVideos (fs : FS) : List FileP :=
  List.insertionSort videoKeyLe
    (globFiles VIDEO_DIR (matchExt ".mp4".toList) fs ++
      globFiles VIDEO_DIR (matchExt ".webm".toList) fs ++
      globFiles VIDEO_DIR (matchExt ".mkv".toList) fs)

/-- Embeds `main`.  The thread pool is modelled as a sequential fold over
the sorted videos (the claims settled here concern only the paths that do
not depend on interleaving). -/
def main (env : Env) (fs : FS) : FS :=
  if !env.ffmpeg then fs
  else if VIDEO_DIR ∉ fs.dirs then fs
  else
    let fs1 := mkdir OUTPUT_DIR fs
    let videos := discoverVideos fs1
    if videos = [] then fs1
    else
      let fs2 := videos.foldl (fun s v => (process_video env.ff env.sr v.2 s).2) fs1
      (merge_all_pdfs fs2).1

/-! ## Digit-printer lemmas -/

theorem digitChar_isDigit_of_lt_ten : ∀ d < 10, (Nat.digitChar d).isDigit = true := by
  decide

theorem charVal_digitChar_of_lt_ten : ∀ d < 10, charVal (Nat.digitChar d) = d := by
  decide

/-- `toDigitsCore` with enough fuel prepends the digits of `n` to the
accumulator. -/
theorem toDigitsCore_eq_toDigits_append :
    ∀ n fuel ds, n < fuel →
      Nat.toDigitsCore 10 fuel n ds = Nat.toDigits 10 n ++ ds := by
  intro n
  induction n using Nat.strong_induction_on with
  | _ n ih =>
    intro fuel ds hlt
    match fuel, hlt with
    | f + 1, hlt =>
      by_cases h0 : n / 10 = 0
      · simp only [Nat.toDigitsCore, h0, if_true, Nat.toDigits, List.cons_append,
          List.nil_append]
      · have hn10 : 10 ≤ n := by
          by_contra h
          exact h0 (Nat.div_eq_of_lt (Nat.lt_of_not_le h))
        have hdiv_lt : n / 10 < n := Nat.div_lt_self (by omega) (by omega)
        have hdiv_f : n / 10 < f := by
          have : n ≤ f := Nat.lt_succ_iff.mp hlt
          omega
        have lhs :
            Nat.toDigitsCore 10 (f + 1) n ds =
              Nat.toDigitsCore 10 f (n / 10) (Nat.digitChar (n % 10) :: ds) := by
          simp only [Nat.toDigitsCore, h0, if_false]
        have rhs :
            Nat.toDigits 10 n =
              Nat.toDigitsCore 10 n (n / 10) [Nat.digitChar (n % 10)] := by
          simp only [Nat.toDigits, Nat.toDigitsCore, h0, if_false]
        rw [lhs, ih (n / 10) hdiv_lt f (Nat.digitChar (n % 10) :: ds) hdiv_f,
          rhs, ih (n / 10) hdiv_lt n [Nat.digitChar (n % 10)] hdiv_lt]
        simp

/-- The decimal printer on a one-digit number. -/
theorem toDigits_small (n : Nat) (h : n < 10) :
    Nat.toDigits 10 n = [Nat.digitChar n] := by
  have h0 : n / 10 = 0 := Nat.div_eq_of_lt h
  have hm : n % 10 = n := Nat.mod_eq_of_lt h
  simp only [Nat.toDigits, Nat.toDigitsCore, h0, if_true, hm]

/-- The decimal printer peels off the last digit. -/
theorem toDigits_step (n : Nat) (h : 10 ≤ n) :
    Nat.toDigits 10 n = Nat.toDigits 10 (n / 10) ++ [Nat.digitChar (n % 10)] := by
  have h0 : n / 10 ≠ 0 := by omega
  have rhs :
      Nat.toDigits 10 n =
        Nat.toDigitsCore 10 n (n / 10) [Nat.digitChar (n % 10)] := by
    simp only [Nat.toDigits, Nat.toDigitsCore, h0, if_false]
  rw [rhs, toDigitsCore_eq_toDigits_append (n / 10) n [Nat.digitChar (n % 10)]
    (Nat.div_lt_self (by omega) (by omega))]

/-- Reading back the printed decimal string returns the number. -/
theorem natOfDigits_pythonStr (n : Nat) : natOfDigits (pythonStr n) = n := by
  induction n using Nat.strong_induction_on with
  | _ n ih =>
    by_cases h : n < 10
    · simp only [pythonStr, toDigits_small n h, natOfDigits, List.foldl_cons,
        List.foldl_nil]
      rw [charVal_digitChar_of_lt_ten n h]
      omega
    · have h10 : 10 ≤ n := Nat.le_of_not_lt h
      have hdiv_lt : n / 10 < n := Nat.div_lt_self (by omega) (by omega)
      simp only [pythonStr, toDigits_step n h10, natOfDigits, List.foldl_append,
        List.foldl_cons, List.foldl_nil]
      have := ih (n / 10) hdiv_lt
      simp only [pythonStr, natOfDigits] at this
      rw [this, charVal_digitChar_of_lt_ten (n % 10) (Nat.mod_lt n (by omega))]
      omega

/-- Every character the decimal printer emits is a digit. -/
theorem pythonStr_all_digits (n : Nat) : ∀ c ∈ pythonStr n, c.isDigit = true := by
  induction n using Nat.strong_induction_on with
  | _ n ih =>
    by_cases h : n < 10
    · simp only [pythonStr, toDigits_small n h, List.mem_singleton]
      intro c hc
      subst hc
      exact digitChar_isDigit_of_lt_ten n h
    · have h10 : 10 ≤ n := Nat.le_of_not_lt h
      have hdiv_lt : n / 10 < n := Nat.div_lt_self (by omega) (by omega)
      simp only [pythonStr, toDigits_step n h10, List.mem_append, List.mem_singleton]
      intro c hc
      rcases hc with hc | hc
      · exact ih (n / 10) hdiv_lt c hc
      · subst hc
        exact digitChar_isDigit_of_lt_ten (n % 10) (Nat.mod_lt n (by omega))

/-- Leading `'0'` padding does not change the value a digit string denotes. -/
theorem natOfDigits_replicate_zero (k : Nat) (s : List Char) :
    natOfDigits (List.replicate k '0' ++ s) = natOfDigits s := by
  induction k with
  | zero => simp
  | succ k ihk =>
    simp only [List.replicate_succ, List.cons_append, natOfDigits, List.foldl_cons]
    have : (0 : Nat) * 10 + charVal '0' = 0 := by decide
    rw [this]
    exact ihk

/-- Reading back a zero-filled printed number returns the number. -/
theorem natOfDigits_zfill_pythonStr (w n : Nat) :
    natOfDigits (zfill w (pythonStr n)) = n := by
  rw [zfill, natOfDigits_replicate_zero, natOfDigits_pythonStr]

/-- Every character of a zero-filled printed number is a digit. -/
theorem zfill_pythonStr_all_digits (w n : Nat) :
    ∀ c ∈ zfill w (pythonStr n), c.isDigit = true := by
  intro c hc
  rw [zfill, List.mem_append] at hc
  rcases hc with hc | hc
  · rw [List.eq_of_mem_replicate hc]
    decide
  · exact pythonStr_all_digits n c hc

/-- The printed form of a number is never the empty string. -/
theorem pythonStr_ne_nil (n : Nat) : pythonStr n ≠ [] := by
  by_cases h : n < 10
  · simp [pythonStr, toDigits_small n h]
  · simp [pythonStr, toDigits_step n (Nat.le_of_not_lt h)]

/-- `takeWhile` on a digit block followed by a non-matching head returns the
block. -/
theorem takeWhile_digits_append (p : Char → Bool) :
    ∀ (ds rest : List Char), (∀ c ∈ ds, p c = true) →
      (∀ c, rest.head? = some c → p c = false) →
      (ds ++ rest).takeWhile p = ds := by
  intro ds
  induction ds with
  | nil =>
    intro rest _ hrest
    cases rest with
    | nil => simp
    | cons c cs =>
      simp only [List.nil_append, List.takeWhile]
      rw [hrest c rfl]
  | cons d ds ihd =>
    intro rest hds hrest
    have hd : p d = true := hds d (List.mem_cons_self d ds)
    simp only [List.cons_append, List.takeWhile, hd]
    exact congrArg (d :: ·)
      (ihd rest (fun c hc => hds c (List.mem_cons_of_mem d hc)) hrest)


/-! ## Filesystem lemmas -/

theorem digitRun_eq_nil (cs : Name)
    (h : ∀ c, cs.head? = some c → c.isDigit = false) : digitRun cs = [] := by
  cases cs with
  | nil => rfl
  | cons c t =>
    simp only [digitRun, List.takeWhile]
    rw [h c rfl]

theorem addFile_mem_self (f : FileP) (fs : FS) : f ∈ (addFile f fs).files := by
  simp only [addFile]
  by_cases h : f ∈ fs.files
  · simp [h]
  · simp [h]

theorem addFile_mem_mono (f g : FileP) (fs : FS) (h : g ∈ fs.files) :
    g ∈ (addFile f fs).files := by
  simp only [addFile]
  by_cases hf : f ∈ fs.files
  · simpa [hf]
  · simp [hf, h]

theorem addFile_dirs (f : FileP) (fs : FS) : (addFile f fs).dirs = fs.dirs := rfl

theorem foldl_addFile_dirs (l : List Nat) (d : Dir) (fs : FS) :
    (l.foldl (fun s i => addFile (d, frameName (i + 1)) s) fs).dirs = fs.dirs := by
  induction l generalizing fs with
  | nil => rfl
  | cons a l ihl => simp only [List.foldl_cons, ihl, addFile_dirs]

theorem ffmpegDeposit_dirs (k : Nat) (d : Dir) (fs : FS) :
    (ffmpegDeposit k d fs).dirs = fs.dirs :=
  foldl_addFile_dirs (List.range k) d fs

theorem foldl_addFile_mem_mono (l : List Nat) (d : Dir) (fs : FS) (g : FileP)
    (h : g ∈ fs.files) :
    g ∈ (l.foldl (fun s i => addFile (d, frameName (i + 1)) s) fs).files := by
  induction l generalizing fs with
  | nil => exact h
  | cons a l ihl =>
    simp only [List.foldl_cons]
    exact ihl _ (addFile_mem_mono _ _ _ h)

theorem ffmpegDeposit_last_mem (j : Nat) (d : Dir) (fs : FS) :
    (d, frameName (j + 1)) ∈ (ffmpegDeposit (j + 1) d fs).files := by
  simp only [ffmpegDeposit, List.range_succ, List.foldl_append, List.foldl_cons,
    List.foldl_nil]
  exact addFile_mem_self _ _

theorem insertDir_mem_self (q : Dir) (l : List Dir) : q ∈ insertDir q l := by
  simp only [insertDir]
  by_cases h : q ∈ l
  · simp [h]
  · simp [h]

theorem insertDir_mem_mono (q p : Dir) (l : List Dir) (h : p ∈ l) :
    p ∈ insertDir q l := by
  simp only [insertDir]
  by_cases hq : q ∈ l
  · simpa [hq]
  · simp [hq, h]

theorem foldl_insertDir_mem_mono (l : List Dir) (ds : List Dir) (p : Dir)
    (h : p ∈ ds) : p ∈ l.foldl (fun a q => insertDir q a) ds := by
  induction l generalizing ds with
  | nil => exact h
  | cons a l ihl =>
    simp only [List.foldl_cons]
    exact ihl _ (insertDir_mem_mono a p ds h)

theorem foldl_insertDir_mem_of_mem_list (l : List Dir) (ds : List Dir) (q : Dir)
    (h : q ∈ l) : q ∈ l.foldl (fun a p => insertDir p a) ds := by
  induction l generalizing ds with
  | nil => cases h
  | cons a l ihl =>
    simp only [List.foldl_cons]
    rcases List.mem_cons.mp h with rfl | hmem
    · exact foldl_insertDir_mem_mono l _ q (insertDir_mem_self q ds)
    · exact ihl _ hmem

theorem foldl_insertDir_of_all_mem (l : List Dir) (ds : List Dir)
    (h : ∀ q ∈ l, q ∈ ds) : l.foldl (fun a q => insertDir q a) ds = ds := by
  induction l with
  | nil => rfl
  | cons a l ihl =>
    simp only [List.foldl_cons, insertDir, h a (List.mem_cons_self a l), if_true]
    exact ihl (fun q hq => h q (List.mem_cons_of_mem a hq))

theorem mkdirParents_files (p : Dir) (fs : FS) :
    (mkdirParents p fs).files = fs.files := rfl

theorem mkdirParents_mem_dirs (p : Dir) (fs : FS) (q : Dir) (h : q ∈ p.inits) :
    q ∈ (mkdirParents p fs).dirs :=
  foldl_insertDir_mem_of_mem_list p.inits fs.dirs q h

theorem mkdirParents_self_mem_dirs (p : Dir) (fs : FS) :
    p ∈ (mkdirParents p fs).dirs :=
  mkdirParents_mem_dirs p fs p (by simp [List.mem_inits])

theorem mkdirParents_of_all_mem (p : Dir) (fs : FS)
    (h : ∀ q ∈ p.inits, q ∈ fs.dirs) : mkdirParents p fs = fs := by
  simp only [mkdirParents, foldl_insertDir_of_all_mem p.inits fs.dirs h]

theorem globFiles_mkdirParents (d p : Dir) (pat : Name → Bool) (fs : FS) :
    globFiles d pat (mkdirParents p fs) = globFiles d pat fs := rfl

theorem globFiles_ne_nil_of_mem (d : Dir) (pat : Name → Bool) (fs : FS)
    (f : FileP) (hf : f ∈ fs.files) (hd : f.1 = d) (hp : pat f.2 = true) :
    globFiles d pat fs ≠ [] := by
  apply List.ne_nil_of_mem (a := f)
  simp only [globFiles, List.mem_filter]
  exact ⟨hf, by simp [hd, hp]⟩

theorem delete_frames_not_mem (folder : Dir) (fs : FS) (f : FileP)
    (h : f ∉ fs.files) : f ∉ (delete_frames folder fs).files := by
  simp only [delete_frames]
  intro hc
  by_cases hsplit :
      (fs.files.filter (fun g => !(decide (g.1 = folder) && matchJpg g.2))).filter
        (fun g => decide (g.1 = folder)) = [] <;>
    simp only [hsplit, if_true, if_false] at hc <;>
    exact h (List.mem_of_mem_filter hc)

theorem zfill_length_ge (w : Nat) (s : List Char) : w ≤ (zfill w s).length := by
  simp only [zfill, List.length_append, List.length_replicate]
  omega

theorem matchFrameGlob_frameName (i : Nat) :
    matchFrameGlob (frameName i) = true := by
  have hlen : 10 ≤ (frameName i).length := by
    have := zfill_length_ge 4 (pythonStr i)
    simp [frameName, List.length_append]
  simp only [matchFrameGlob, Bool.and_eq_true, decide_eq_true_eq]
  refine ⟨⟨?_, ?_⟩, hlen⟩
  · rw [List.isPrefixOf_iff_prefix]
    exact ⟨zfill 4 (pythonStr i) ++ ".jpg".toList, by simp [frameName]⟩
  · rw [List.isSuffixOf_iff_suffix]
    exact ⟨"frame_".toList ++ zfill 4 (pythonStr i), by simp [frameName]⟩

/-! ## Lemmas about the pipeline stages -/

theorem extract_frames_ret_true (ff : Name → Nat) (v : Name) (d : Dir)
    (fs : FS) : (extract_frames ff v d fs).ret = true := by
  by_cases hg : globFiles d matchFrameGlob (mkdirParents d fs) = [] <;>
    simp [extract_frames, hg]

theorem extract_frames_dirs_mem (ff : Name → Nat) (v : Name) (d : Dir)
    (fs : FS) (q : Dir) (hq : q ∈ d.inits) :
    q ∈ (extract_frames ff v d fs).fs.dirs := by
  by_cases hg : globFiles d matchFrameGlob (mkdirParents d fs) = [] <;>
    simp [extract_frames, hg, ffmpegDeposit_dirs] <;>
    exact mkdirParents_mem_dirs d fs q hq

theorem extract_frames_called_of_empty (ff : Name → Nat) (v : Name) (d : Dir)
    (fs : FS) (h : globFiles d matchFrameGlob (mkdirParents d fs) = []) :
    (extract_frames ff v d fs).called = true := by
  simp [extract_frames, h]

theorem extract_frames_skip (ff : Name → Nat) (v : Name) (d : Dir) (fs : FS)
    (h : globFiles d matchFrameGlob (mkdirParents d fs) ≠ []) :
    extract_frames ff v d fs = ⟨true, false, mkdirParents d fs⟩ := by
  simp [extract_frames, h]

theorem extract_frames_fs_of_empty (ff : Name → Nat) (v : Name) (d : Dir)
    (fs : FS) (h : globFiles d matchFrameGlob (mkdirParents d fs) = []) :
    (extract_frames ff v d fs).fs = ffmpegDeposit (ff v) d (mkdirParents d fs) := by
  simp [extract_frames, h]

/-- After a first `extract_frames` call whose external invocation (if any)
deposited at least one frame, the directory contains a matching frame file. -/
theorem extract_frames_glob_after (ff : Name → Nat) (v : Name) (d : Dir)
    (fs : FS) (hk : 1 ≤ ff v) :
    globFiles d matchFrameGlob
      (mkdirParents d (extract_frames ff v d fs).fs) ≠ [] := by
  rw [globFiles_mkdirParents]
  by_cases hg : globFiles d matchFrameGlob (mkdirParents d fs) = []
  · rw [extract_frames_fs_of_empty ff v d fs hg]
    obtain ⟨j, hj⟩ : ∃ j, ff v = j + 1 := ⟨ff v - 1, by omega⟩
    rw [hj]
    exact globFiles_ne_nil_of_mem d _ _ (d, frameName (j + 1))
      (ffmpegDeposit_last_mem j d _) rfl (matchFrameGlob_frameName (j + 1))
  · rw [extract_frames_skip ff v d fs hg]
    exact hg

theorem sortedJpgs_of_glob_nil (d : Dir) (fs : FS)
    (h : globFiles d matchJpg fs = []) : sortedJpgs d fs = [] := by
  simp [sortedJpgs, h]

theorem images_to_pdf_skip (sr : Bool) (d : Dir) (pdf : FileP) (fs : FS)
    (h : pdf ∈ fs.files) :
    images_to_pdf sr d pdf fs = ⟨.ok true, false, [], [], fs⟩ := by
  simp [images_to_pdf, h]

/-- Only the success branch of `images_to_pdf` sets `assembled`, and that
branch writes the target PDF. -/
theorem images_to_pdf_assembled_mem (sr : Bool) (d : Dir) (pdf : FileP)
    (fs : FS) (h : (images_to_pdf sr d pdf fs).assembled = true) :
    pdf ∈ (images_to_pdf sr d pdf fs).fs.files := by
  by_cases h1 : pdf ∈ fs.files
  · rw [images_to_pdf_skip sr d pdf fs h1]
    exact h1
  · by_cases h2 : sortedJpgs d fs = []
    · simp [images_to_pdf, h1, h2] at h
    · cases sr
      · simp only [images_to_pdf, if_neg h1, h2, if_false, Bool.false_eq_true,
          reduceIte]
        exact addFile_mem_self pdf fs
      · simp [images_to_pdf, h1, h2] at h

/-! ## Claim C1 -/

/-- **C1** counterexample: the filename `1000000000a.mp4` has a leading digit
run whose value `1000000000` exceeds the sentinel `999999999`, so the
sentinel-keyed filename `final.mp4` sorts *before* it, refuting the claim
that sentinel-keyed filenames order after every digit-prefixed filename. -/
theorem extract_number_sentinel_not_last_cex :
    extract_number "final.mp4".toList = 999999999 ∧
    extract_number "1000000000a.mp4".toList = 1000000000 ∧
    extract_number "final.mp4".toList < extract_number "1000000000a.mp4".toList := by
  decide

/-- **C1** (amended): for every filename beginning with a maximal run of
decimal digits, `extract_number` returns that run read as an integer; for
every filename with no leading digit it returns the sentinel `999999999`;
and under this key a sentinel-keyed filename orders after every
digit-prefixed filename whose leading run denotes a value smaller than the
sentinel (a filename whose leading run denotes `999999999` or more does
not sort before the sentinel-keyed one). -/
theorem extract_number_spec (ds rest cs : Name)
    (hne : ds ≠ []) (hds : ∀ c ∈ ds, c.isDigit = true)
    (hrest : ∀ c, rest.head? = some c → c.isDigit = false)
    (hcs : ∀ c, cs.head? = some c → c.isDigit = false) :
    extract_number (ds ++ rest) = natOfDigits ds ∧
    extract_number cs = 999999999 ∧
    (natOfDigits ds < 999999999 →
      extract_number (ds ++ rest) < extract_number cs) := by
  have hrun : digitRun (ds ++ rest) = ds :=
    takeWhile_digits_append (fun c => c.isDigit) ds rest hds hrest
  have h1 : extract_number (ds ++ rest) = natOfDigits ds := by
    simp only [extract_number, hrun, if_neg hne]
  have h2 : extract_number cs = 999999999 := by
    simp [extract_number, digitRun_eq_nil cs hcs]
  exact ⟨h1, h2, fun hlt => by rw [h1, h2]; exact hlt⟩

/-- Witness for `extract_number_spec` at the filename `012 Lec.mp4` against
the digit-free filename `final.mp4`. -/
theorem extract_number_spec_witness :
    extract_number ("012".toList ++ " Lec.mp4".toList) = natOfDigits "012".toList ∧
    extract_number "final.mp4".toList = 999999999 ∧
    (natOfDigits "012".toList < 999999999 →
      extract_number ("012".toList ++ " Lec.mp4".toList) <
        extract_number "final.mp4".toList) :=
  extract_number_spec "012".toList " Lec.mp4".toList "final.mp4".toList
    (by decide) (by decide) (by decide) (by decide)

/-! ## Claim C3 -/

/-- **C3** counterexample: `1a.mp4` and `1b.mp4` are distinct video
filenames with the same leading number, so they map to the same frame
directory and the same per-video PDF path. -/
theorem video_paths_collision_cex :
    "1a.mp4".toList ≠ "1b.mp4".toList ∧
    video_img_dir "1a.mp4".toList = video_img_dir "1b.mp4".toList ∧
    video_pdf_path "1a.mp4".toList = video_pdf_path "1b.mp4".toList := by
  decide

/-- **C3** (amended): two videos whose `extract_number` keys differ map to
distinct frame directories and distinct per-video PDF paths (videos sharing
a leading-number key collide, as the counterexample shows). -/
theorem video_paths_disjoint (v1 v2 : Name)
    (h : extract_number v1 ≠ extract_number v2) :
    video_img_dir v1 ≠ video_img_dir v2 ∧
    video_pdf_path v1 ≠ video_pdf_path v2 := by
  have hnum : video_number v1 ≠ video_number v2 := by
    intro hc
    apply h
    have hv := congrArg natOfDigits hc
    simpa only [video_number, natOfDigits_zfill_pythonStr] using hv
  constructor
  · intro hc
    apply hnum
    have h1 := List.append_cancel_left hc
    simpa using h1
  · intro hc
    apply hnum
    have h2 := congrArg Prod.snd hc
    simp only [video_pdf_path] at h2
    exact List.append_cancel_right h2

/-- Witness for `video_paths_disjoint` at `001.mp4` and `002.mp4`. -/
theorem video_paths_disjoint_witness :
    video_img_dir "001.mp4".toList ≠ video_img_dir "002.mp4".toList ∧
    video_pdf_path "001.mp4".toList ≠ video_pdf_path "002.mp4".toList :=
  video_paths_disjoint "001.mp4".toList "002.mp4".toList (by decide)

/-! ## Claim C8 -/

/-- **C8**: when the target PDF is absent and the frame directory contains
no images, `images_to_pdf` returns the failure flag, assembles nothing,
opens nothing, and leaves the filesystem unchanged (creates no file). -/
theorem images_to_pdf_no_frames (sr : Bool) (d : Dir) (pdf : FileP) (fs : FS)
    (hnopdf : pdf ∉ fs.files) (hempty : globFiles d matchJpg fs = []) :
    images_to_pdf sr d pdf fs = ⟨.ok false, false, [], [], fs⟩ := by
  simp [images_to_pdf, if_neg hnopdf, sortedJpgs_of_glob_nil d fs hempty]

/-- Witness for `images_to_pdf_no_frames` on an empty filesystem. -/
theorem images_to_pdf_no_frames_witness :
    images_to_pdf false ["pdf".toList, "001".toList]
        (OUTPUT_DIR, "001.pdf".toList) ⟨[], []⟩ =
      ⟨.ok false, false, [], [], ⟨[], []⟩⟩ :=
  images_to_pdf_no_frames false ["pdf".toList, "001".toList]
    (OUTPUT_DIR, "001.pdf".toList) ⟨[], []⟩ (by decide) (by decide)

/-! ## Claim C10 -/

/-- **C10**: `extract_frames` creates the target directory (with its
parents, tolerating prior existence) before the idempotency check: the call
always returns success, the directory and all its parents exist afterwards
— also when extraction is skipped — and when the (post-`mkdir`) directory
holds no frame files the external call proceeds, so an empty pre-existing
directory is never an error. -/
theorem extract_frames_mkdir_first (ff : Name → Nat) (v : Name) (d : Dir)
    (fs : FS) :
    (extract_frames ff v d fs).ret = true ∧
    (∀ q ∈ d.inits, q ∈ (extract_frames ff v d fs).fs.dirs) ∧
    (globFiles d matchFrameGlob (mkdirParents d fs) = [] →
      (extract_frames ff v d fs).called = true) :=
  ⟨extract_frames_ret_true ff v d fs,
    fun q hq => extract_frames_dirs_mem ff v d fs q hq,
    fun hempty => extract_frames_called_of_empty ff v d fs hempty⟩

/-- Witness for `extract_frames_mkdir_first` on an empty filesystem (the
frame directory does not yet exist, no frames are present, extraction
proceeds). -/
theorem extract_frames_mkdir_first_witness :
    (extract_frames (fun _ => 1) "a.mp4".toList ["pdf".toList, "001".toList]
      ⟨[], []⟩).ret = true ∧
    (∀ q ∈ (["pdf".toList, "001".toList] : Dir).inits,
      q ∈ (extract_frames (fun _ => 1) "a.mp4".toList
        ["pdf".toList, "001".toList] ⟨[], []⟩).fs.dirs) ∧
    (extract_frames (fun _ => 1) "a.mp4".toList ["pdf".toList, "001".toList]
      ⟨[], []⟩).called = true := by
  have h := extract_frames_mkdir_first (fun _ => 1) "a.mp4".toList
    ["pdf".toList, "001".toList] ⟨[], []⟩
  exact ⟨h.1, h.2.1, h.2.2 (by decide)⟩

/-! ## Claim C2 -/

/-- **C2** counterexample: for a video whose extraction deposits no frames,
the assembler reports the empty frame set (returns `false`, produces no
PDF), yet `process_video` returns `true` — the source discards the result
of `images_to_pdf` (line 143) and reaches `return True` (line 148), so an
empty frame set is *not* reflected in the per-video success flag. -/
theorem process_video_empty_frames_cex :
    (assemblyResult (fun _ => 0) false "001.mp4".toList ⟨[], []⟩).ret =
      .ok false ∧
    (process_video (fun _ => 0) false "001.mp4".toList ⟨[], []⟩).1 = true ∧
    video_pdf_path "001.mp4".toList ∉
      (process_video (fun _ => 0) false "001.mp4".toList ⟨[], []⟩).2.files := by
  decide

/-- **C2** (amended): `process_video` returns `false` exactly when a stage
raises an exception (caught at the pipeline boundary, never propagated);
an empty frame set at assembly time produces no PDF and makes the
assembler report failure, but `process_video` nevertheless returns
`true`. -/
theorem process_video_failure_flag (ff : Name → Nat) (sr : Bool) (v : Name)
    (fs : FS) :
    ((process_video ff sr v fs).1 = false ↔
      (assemblyResult ff sr v fs).ret = .error ()) ∧
    (globFiles (video_img_dir v) matchJpg
        (extract_frames ff v (video_img_dir v) fs).fs = [] →
      video_pdf_path v ∉ (extract_frames ff v (video_img_dir v) fs).fs.files →
      (process_video ff sr v fs).1 = true ∧
      video_pdf_path v ∉ (process_video ff sr v fs).2.files) := by
  have hpv : process_video ff sr v fs =
      (match (assemblyResult ff sr v fs).ret with
        | .error _ => (false, (assemblyResult ff sr v fs).fs)
        | .ok _ =>
          (true, delete_frames (video_img_dir v) (assemblyResult ff sr v fs).fs)) :=
    rfl
  constructor
  · rw [hpv]
    cases hr : (assemblyResult ff sr v fs).ret with
    | error e => cases e; simp [hr]
    | ok b => simp [hr]
  · intro hempty hnopdf
    have har : assemblyResult ff sr v fs =
        ⟨.ok false, false, [], [],
          (extract_frames ff v (video_img_dir v) fs).fs⟩ :=
      images_to_pdf_no_frames sr _ _ _ hnopdf hempty
    rw [hpv, har]
    exact ⟨rfl, delete_frames_not_mem _ _ _ hnopdf⟩

/-- Witness for `process_video_failure_flag`: a video whose extraction
yields no frames, on an empty filesystem. -/
theorem process_video_failure_flag_witness :
    ((process_video (fun _ => 0) false "001.mp4".toList ⟨[], []⟩).1 = false ↔
      (assemblyResult (fun _ => 0) false "001.mp4".toList ⟨[], []⟩).ret =
        .error ()) ∧
    ((process_video (fun _ => 0) false "001.mp4".toList ⟨[], []⟩).1 = true ∧
      video_pdf_path "001.mp4".toList ∉
        (process_video (fun _ => 0) false "001.mp4".toList ⟨[], []⟩).2.files) := by
  have h := process_video_failure_flag (fun _ => 0) false "001.mp4".toList ⟨[], []⟩
  exact ⟨h.1, h.2 (by decide) (by decide)⟩

/-! ## Claim C4 -/

/-- **C4** counterexample: with the video directory present but empty and
no `pdf/` directory, `main` returns early on the no-videos path but has
already created the output directory (line 198 precedes the emptiness
check of line 207) — a side effect, contradicting "no files or directories
are created or modified". -/
theorem main_side_effect_cex :
    discoverVideos (mkdir OUTPUT_DIR ⟨[VIDEO_DIR], []⟩) = [] ∧
    main ⟨true, fun _ => 1, false⟩ ⟨[VIDEO_DIR], []⟩ ≠ ⟨[VIDEO_DIR], []⟩ ∧
    OUTPUT_DIR ∈ (main ⟨true, fun _ => 1, false⟩ ⟨[VIDEO_DIR], []⟩).dirs := by
  decide

/-- **C4** (amended): when `ffmpeg` is available, the input directory
exists, and no video file is discovered, `main` reports and returns before
processing any video — its only side effect is having created the output
directory (a no-op if it already exists): the files are unchanged and the
directories gain exactly `OUTPUT_DIR`. -/
theorem main_no_videos (env : Env) (fs : FS)
    (hffm : env.ffmpeg = true) (hvd : VIDEO_DIR ∈ fs.dirs)
    (hnone : discoverVideos (mkdir OUTPUT_DIR fs) = []) :
    main env fs = mkdir OUTPUT_DIR fs ∧
    (main env fs).files = fs.files ∧
    (main env fs).dirs = insertDir OUTPUT_DIR fs.dirs := by
  have h1 : main env fs = mkdir OUTPUT_DIR fs := by
    simp [main, hffm, hvd, hnone]
  exact ⟨h1, by rw [h1]; rfl, by rw [h1]; rfl⟩

/-- Witness for `main_no_videos`: empty video directory, no output
directory yet. -/
theorem main_no_videos_witness :
    main ⟨true, fun _ => 0, false⟩ ⟨[VIDEO_DIR], []⟩ =
      mkdir OUTPUT_DIR ⟨[VIDEO_DIR], []⟩ ∧
    (main ⟨true, fun _ => 0, false⟩ ⟨[VIDEO_DIR], []⟩).files =
      (⟨[VIDEO_DIR], []⟩ : FS).files ∧
    (main ⟨true, fun _ => 0, false⟩ ⟨[VIDEO_DIR], []⟩).dirs =
      insertDir OUTPUT_DIR [VIDEO_DIR] :=
  main_no_videos ⟨true, fun _ => 0, false⟩ ⟨[VIDEO_DIR], []⟩ rfl
    (by decide) (by decide)

/-! ## Claim C5 -/

/-- **C5** counterexample: with `1000000000.pdf` and `notes.pdf` in the
output directory, the merge appends `notes.pdf` (no leading number, key =
sentinel `999999999`) *first*, because the other PDF's leading number
`1000000000` exceeds the sentinel — refuting "a PDF whose name lacks a
leading number sorts last". -/
theorem merge_no_number_not_last_cex :
    digitRun (stem "notes.pdf".toList) = [] ∧
    (merge_all_pdfs ⟨[OUTPUT_DIR],
        [(OUTPUT_DIR, "1000000000.pdf".toList),
          (OUTPUT_DIR, "notes.pdf".toList)]⟩).2 =
      some [(OUTPUT_DIR, "notes.pdf".toList),
        (OUTPUT_DIR, "1000000000.pdf".toList)] := by
  decide

/-- **C5** (amended): if the merged output exists, `merge_all_pdfs` changes
nothing and appends nothing; otherwise it appends exactly the PDFs globbed
from the output directory, in ascending order of the leading-number key of
their stems (a PDF without a leading number carries the sentinel key
`999999999` and hence sorts after every PDF whose key is smaller — but not
after one whose leading number is `999999999` or larger), and writes the
merged file. -/
theorem merge_all_pdfs_spec (fs : FS) :
    ((OUTPUT_DIR, mergedName) ∈ fs.files → merge_all_pdfs fs = (fs, none)) ∧
    ((OUTPUT_DIR, mergedName) ∉ fs.files →
      ∃ content, (merge_all_pdfs fs).2 = some content ∧
        content.Perm (globFiles OUTPUT_DIR matchPdf fs) ∧
        List.Sorted mergeKeyLe content ∧
        (merge_all_pdfs fs).1.files = (OUTPUT_DIR, mergedName) :: fs.files ∧
        (merge_all_pdfs fs).1.dirs = fs.dirs) := by
  constructor
  · intro h
    simp [merge_all_pdfs, h]
  · intro h
    refine ⟨List.insertionSort mergeKeyLe (globFiles OUTPUT_DIR matchPdf fs),
      ?_, ?_, ?_, ?_, ?_⟩
    · simp [merge_all_pdfs, h]
    · exact List.perm_insertionSort mergeKeyLe _
    · exact List.sorted_insertionSort mergeKeyLe _
    · simp [merge_all_pdfs, h, addFile]
    · simp [merge_all_pdfs, h, addFile]

/-- Witness for `merge_all_pdfs_spec`: the skip case on a filesystem where
the merged file exists, and the merge case with one per-video PDF. -/
theorem merge_all_pdfs_spec_witness :
    merge_all_pdfs ⟨[OUTPUT_DIR], [(OUTPUT_DIR, mergedName)]⟩ =
      (⟨[OUTPUT_DIR], [(OUTPUT_DIR, mergedName)]⟩, none) ∧
    (∃ content,
      (merge_all_pdfs ⟨[OUTPUT_DIR], [(OUTPUT_DIR, "001.pdf".toList)]⟩).2 =
        some content ∧
      content.Perm (globFiles OUTPUT_DIR matchPdf
        ⟨[OUTPUT_DIR], [(OUTPUT_DIR, "001.pdf".toList)]⟩) ∧
      List.Sorted mergeKeyLe content ∧
      (merge_all_pdfs ⟨[OUTPUT_DIR], [(OUTPUT_DIR, "001.pdf".toList)]⟩).1.files =
        (OUTPUT_DIR, mergedName) :: [(OUTPUT_DIR, "001.pdf".toList)] ∧
      (merge_all_pdfs ⟨[OUTPUT_DIR], [(OUTPUT_DIR, "001.pdf".toList)]⟩).1.dirs =
        [OUTPUT_DIR]) := by
  have h1 := (merge_all_pdfs_spec ⟨[OUTPUT_DIR], [(OUTPUT_DIR, mergedName)]⟩).1
    (by decide)
  have h2 := (merge_all_pdfs_spec
    ⟨[OUTPUT_DIR], [(OUTPUT_DIR, "001.pdf".toList)]⟩).2 (by decide)
  exact ⟨h1, h2⟩

/-! ## Claim C6 -/

/-- **C6** counterexample: when the external call deposits no frames (for
example an unreadable video — the script never checks `ffmpeg`'s exit
status), the idempotency check finds the directory still empty, so a
second invocation performs the external call *again*: two invocations can
perform the call twice, refuting "performs the external call at most
once". -/
theorem extract_frames_called_twice_cex :
    (extract_frames (fun _ => 0) "corrupt.mp4".toList
      ["pdf".toList, "999999999".toList] ⟨[], []⟩).called = true ∧
    (extract_frames (fun _ => 0) "corrupt.mp4".toList
      ["pdf".toList, "999999999".toList]
      (extract_frames (fun _ => 0) "corrupt.mp4".toList
        ["pdf".toList, "999999999".toList] ⟨[], []⟩).fs).called = true := by
  decide

/-- **C6** (amended): if frame files already exist in the directory,
`extract_frames` returns success without invoking the external tool; and
*provided the external call deposits at least one frame file*, invoking
`extract_frames` twice on the same video/directory performs the external
call at most once — the second invocation skips, returns success, and
leaves the filesystem unchanged. -/
theorem extract_frames_idempotent (ff : Name → Nat) (v : Name) (d : Dir)
    (fs : FS) (hk : 1 ≤ ff v) :
    (globFiles d matchFrameGlob (mkdirParents d fs) ≠ [] →
      extract_frames ff v d fs = ⟨true, false, mkdirParents d fs⟩) ∧
    (extract_frames ff v d (extract_frames ff v d fs).fs).called = false ∧
    (extract_frames ff v d (extract_frames ff v d fs).fs).ret = true ∧
    (extract_frames ff v d (extract_frames ff v d fs).fs).fs =
      (extract_frames ff v d fs).fs := by
  have hmk : mkdirParents d (extract_frames ff v d fs).fs =
      (extract_frames ff v d fs).fs :=
    mkdirParents_of_all_mem d _ (fun q hq => extract_frames_dirs_mem ff v d fs q hq)
  have hglob := extract_frames_glob_after ff v d fs hk
  have hskip := extract_frames_skip ff v d (extract_frames ff v d fs).fs hglob
  rw [hskip]
  exact ⟨fun hne => extract_frames_skip ff v d fs hne, rfl, rfl, hmk⟩

/-- Witness for `extract_frames_idempotent`: a directory already holding a
frame file, so the first invocation already skips. -/
theorem extract_frames_idempotent_witness :
    (globFiles ["pdf".toList, "001".toList] matchFrameGlob
        (mkdirParents ["pdf".toList, "001".toList]
          ⟨[], [(["pdf".toList, "001".toList], "frame_0001.jpg".toList)]⟩) ≠ [] →
      extract_frames (fun _ => 1) "a.mp4".toList ["pdf".toList, "001".toList]
          ⟨[], [(["pdf".toList, "001".toList], "frame_0001.jpg".toList)]⟩ =
        ⟨true, false, mkdirParents ["pdf".toList, "001".toList]
          ⟨[], [(["pdf".toList, "001".toList], "frame_0001.jpg".toList)]⟩⟩) ∧
    (extract_frames (fun _ => 1) "a.mp4".toList ["pdf".toList, "001".toList]
      (extract_frames (fun _ => 1) "a.mp4".toList ["pdf".toList, "001".toList]
        ⟨[], [(["pdf".toList, "001".toList], "frame_0001.jpg".toList)]⟩).fs).called =
      false ∧
    (extract_frames (fun _ => 1) "a.mp4".toList ["pdf".toList, "001".toList]
      (extract_frames (fun _ => 1) "a.mp4".toList ["pdf".toList, "001".toList]
        ⟨[], [(["pdf".toList, "001".toList], "frame_0001.jpg".toList)]⟩).fs).ret =
      true ∧
    (extract_frames (fun _ => 1) "a.mp4".toList ["pdf".toList, "001".toList]
      (extract_frames (fun _ => 1) "a.mp4".toList ["pdf".toList, "001".toList]
        ⟨[], [(["pdf".toList, "001".toList], "frame_0001.jpg".toList)]⟩).fs).fs =
      (extract_frames (fun _ => 1) "a.mp4".toList ["pdf".toList, "001".toList]
        ⟨[], [(["pdf".toList, "001".toList], "frame_0001.jpg".toList)]⟩).fs :=
  extract_frames_idempotent (fun _ => 1) "a.mp4".toList
    ["pdf".toList, "001".toList]
    ⟨[], [(["pdf".toList, "001".toList], "frame_0001.jpg".toList)]⟩ (by decide)

/-! ## Claim C7 -/

/-- **C7**: if the target PDF already exists, `images_to_pdf` skips the
assembly and returns success with nothing opened and the filesystem
unchanged; consequently two successive invocations with the same target
PDF path never both perform the assembly (write the PDF) — the assembly
happens at most once. -/
theorem images_to_pdf_idempotent (sr1 sr2 : Bool) (d1 d2 : Dir) (pdf : FileP)
    (fs : FS) :
    (pdf ∈ fs.files →
      images_to_pdf sr1 d1 pdf fs = ⟨.ok true, false, [], [], fs⟩) ∧
    ((images_to_pdf sr1 d1 pdf fs).assembled &&
      (images_to_pdf sr2 d2 pdf (images_to_pdf sr1 d1 pdf fs).fs).assembled) =
      false := by
  refine ⟨fun h => images_to_pdf_skip sr1 d1 pdf fs h, ?_⟩
  by_cases ha : (images_to_pdf sr1 d1 pdf fs).assembled = true
  · have hmem := images_to_pdf_assembled_mem sr1 d1 pdf fs ha
    rw [images_to_pdf_skip sr2 d2 pdf _ hmem]
    simp
  · rw [Bool.not_eq_true] at ha
    rw [ha, Bool.false_and]

/-- Witness for `images_to_pdf_idempotent`: the target PDF already
exists. -/
theorem images_to_pdf_idempotent_witness :
    images_to_pdf false ["pdf".toList, "001".toList]
        (OUTPUT_DIR, "001.pdf".toList)
        ⟨[OUTPUT_DIR], [(OUTPUT_DIR, "001.pdf".toList)]⟩ =
      ⟨.ok true, false, [], [],
        ⟨[OUTPUT_DIR], [(OUTPUT_DIR, "001.pdf".toList)]⟩⟩ ∧
    ((images_to_pdf false ["pdf".toList, "001".toList]
        (OUTPUT_DIR, "001.pdf".toList)
        ⟨[OUTPUT_DIR], [(OUTPUT_DIR, "001.pdf".toList)]⟩).assembled &&
      (images_to_pdf false ["pdf".toList, "001".toList]
        (OUTPUT_DIR, "001.pdf".toList)
        (images_to_pdf false ["pdf".toList, "001".toList]
          (OUTPUT_DIR, "001.pdf".toList)
          ⟨[OUTPUT_DIR], [(OUTPUT_DIR, "001.pdf".toList)]⟩).fs).assembled) =
      false := by
  have h := images_to_pdf_idempotent false false ["pdf".toList, "001".toList]
    ["pdf".toList, "001".toList] (OUTPUT_DIR, "001.pdf".toList)
    ⟨[OUTPUT_DIR], [(OUTPUT_DIR, "001.pdf".toList)]⟩
  exact ⟨h.1 (by decide), h.2⟩

/-! ## Claim C9 -/

/-- **C9** counterexample: when `first.save(...)` raises, the `close()`
calls of lines 111–113 — which follow `save` in straight-line code, with
no `try/finally` or context manager — are never executed: the opened image
is not released, refuting "released regardless of outcome". -/
theorem images_to_pdf_leak_cex :
    (images_to_pdf true ["pdf".toList, "001".toList]
      (OUTPUT_DIR, "001.pdf".toList)
      ⟨[OUTPUT_DIR],
        [(["pdf".toList, "001".toList], "frame_0001.jpg".toList)]⟩).ret =
      .error () ∧
    (images_to_pdf true ["pdf".toList, "001".toList]
      (OUTPUT_DIR, "001.pdf".toList)
      ⟨[OUTPUT_DIR],
        [(["pdf".toList, "001".toList], "frame_0001.jpg".toList)]⟩).opened ≠ [] ∧
    (images_to_pdf true ["pdf".toList, "001".toList]
      (OUTPUT_DIR, "001.pdf".toList)
      ⟨[OUTPUT_DIR],
        [(["pdf".toList, "001".toList], "frame_0001.jpg".toList)]⟩).closed = [] := by
  decide

/-- **C9** (amended): in every execution of `images_to_pdf` that completes
without an exception, every opened image resource is released before the
call returns; but in an execution where writing the PDF raises, none of
the opened images is released. -/
theorem images_to_pdf_close_spec (sr : Bool) (d : Dir) (pdf : FileP)
    (fs : FS) :
    (∀ b, (images_to_pdf sr d pdf fs).ret = .ok b →
      (images_to_pdf sr d pdf fs).closed = (images_to_pdf sr d pdf fs).opened) ∧
    ((images_to_pdf sr d pdf fs).ret = .error () →
      (images_to_pdf sr d pdf fs).closed = []) := by
  by_cases h1 : pdf ∈ fs.files
  · simp [images_to_pdf, h1]
  · by_cases h2 : sortedJpgs d fs = []
    · simp [images_to_pdf, h1, h2]
    · cases sr
      · simp [images_to_pdf, h1, h2]
      · simp [images_to_pdf, h1, h2]

/-- Witness for `images_to_pdf_close_spec`: a successful assembly of one
frame, where the closed list equals the opened list. -/
theorem images_to_pdf_close_spec_witness :
    (images_to_pdf false ["pdf".toList, "001".toList]
        (OUTPUT_DIR, "001.pdf".toList)
        ⟨[OUTPUT_DIR],
          [(["pdf".toList, "001".toList], "frame_0001.jpg".toList)]⟩).closed =
      (images_to_pdf false ["pdf".toList, "001".toList]
        (OUTPUT_DIR, "001.pdf".toList)
        ⟨[OUTPUT_DIR],
          [(["pdf".toList, "001".toList], "frame_0001.jpg".toList)]⟩).opened ∧
    ((images_to_pdf false ["pdf".toList, "001".toList]
        (OUTPUT_DIR, "001.pdf".toList)
        ⟨[OUTPUT_DIR],
          [(["pdf".toList, "001".toList], "frame_0001.jpg".toList)]⟩).ret =
        .error () →
      (images_to_pdf false ["pdf".toList, "001".toList]
        (OUTPUT_DIR, "001.pdf".toList)
        ⟨[OUTPUT_DIR],
          [(["pdf".toList, "001".toList], "frame_0001.jpg".toList)]⟩).closed =
        []) := by
  have h := images_to_pdf_close_spec false ["pdf".toList, "001".toList]
    (OUTPUT_DIR, "001.pdf".toList)
    ⟨[OUTPUT_DIR], [(["pdf".toList, "001".toList], "frame_0001.jpg".toList)]⟩
  exact ⟨h.1 true (by decide), h.2⟩

end VideoToPdf
